import Mathlib

/-!
Verification of the Diard document-layout pipeline (src/main.py,
src/modules/utils.py) against its specification.  The Python code is
shallowly embedded: images are nested lists of rational channel values,
detectron2 `Instances` become parallel lists of boxes / scores / class
indices, the Detectron2 config node becomes a record, and the main loop
becomes a trace-producing function.  Fallible operations (Python list
indexing, the `assert` in `BatchPredictor.__init__`) return `Option` or
`Except`.
-/

namespace Diard

/-- The `Prediction` named tuple of `src/modules/utils.py` (lines 78-84):
`(x, y, width, height, score, class_name)`. -/
structure Prediction where
  x : ℚ
  y : ℚ
  width : ℚ
  height : ℚ
  score : ℚ
  class_name : String
deriving Repr, DecidableEq

/-- A detectron2 `Instances` object as consumed by
`BatchPredictor.__map_predictions`: parallel fields `pred_boxes`
(corner boxes `(x1, y1, x2, y2)`), `scores` and `pred_classes`. -/
structure Instances where
  pred_boxes : List (ℚ × ℚ × ℚ × ℚ)
  scores : List ℚ
  pred_classes : List ℕ
deriving Repr, DecidableEq

/-- One iteration of the loop body of `__map_predictions`
(utils.py lines 165-174): extract the corners, convert to
width/height form, resolve the class index through `self.classes`.
Python's `self.classes[class_index]` raises `IndexError` when the index
is out of range, modelled by `List.get?` / `Option`. -/
def mapInstance (classes : List String) (box : ℚ × ℚ × ℚ × ℚ)
    (score : ℚ) (class_index : ℕ) : Option Prediction :=
  match classes.get? class_index with
  | none => none
  | some name =>
      some { x := box.1, y := box.2.1,
             width := box.2.2.1 - box.1, height := box.2.2.2 - box.2.1,
             score := score, class_name := name }

/-- The loop of `__map_predictions` over the zipped
`(pred_boxes, scores, pred_classes)` triples, accumulating the
`predictions` list in order; the first out-of-range class index aborts
(Python raises). -/
def mapPredList (classes : List String) :
    List ((ℚ × ℚ × ℚ × ℚ) × ℚ × ℕ) → Option (List Prediction)
  | [] => some []
  | (box, score, ci) :: rest =>
      match mapInstance classes box score ci with
      | none => none
      | some p =>
          match mapPredList classes rest with
          | none => none
          | some ps => some (p :: ps)

/-- `BatchPredictor.__map_predictions` (utils.py lines 157-175):
zip the three instance fields and map each triple to a `Prediction`. -/
def map_predictions (classes : List String) (inst : Instances) :
    Option (List Prediction) :=
  mapPredList classes (inst.pred_boxes.zip (inst.scores.zip inst.pred_classes))

/-- The relation between one zipped detection triple and its mapped
prediction: width and height are the corner differences, and they are
non-negative whenever the detection is valid (`x1 ≤ x2`, `y1 ≤ y2`). -/
def widthHeightSpec (t : (ℚ × ℚ × ℚ × ℚ) × ℚ × ℕ) (p : Prediction) : Prop :=
  p.width = t.1.2.2.1 - t.1.1 ∧ p.height = t.1.2.2.2 - t.1.2.1 ∧
    (t.1.1 ≤ t.1.2.2.1 → 0 ≤ p.width) ∧ (t.1.2.1 ≤ t.1.2.2.2 → 0 ≤ p.height)

lemma mapPredList_forall₂ (classes : List String)
    (l : List ((ℚ × ℚ × ℚ × ℚ) × ℚ × ℕ)) (ps : List Prediction)
    (h : mapPredList classes l = some ps) :
    List.Forall₂ widthHeightSpec l ps := by
  induction l generalizing ps with
  | nil =>
      simp only [mapPredList] at h
      cases h
      exact List.Forall₂.nil
  | cons t rest ih =>
      obtain ⟨box, score, ci⟩ := t
      simp only [mapPredList] at h
      cases hmi : mapInstance classes box score ci with
      | none => rw [hmi] at h; exact absurd h (by simp)
      | some p =>
          rw [hmi] at h
          cases hrest : mapPredList classes rest with
          | none => rw [hrest] at h; exact absurd h (by simp)
          | some ps' =>
              rw [hrest] at h
              cases h
              refine List.Forall₂.cons ?_ (ih ps' hrest)
              unfold mapInstance at hmi
              cases hcl : classes.get? ci with
              | none => rw [hcl] at hmi; exact absurd hmi (by simp)
              | some name =>
                  rw [hcl] at hmi
                  cases hmi
                  refine ⟨rfl, rfl, ?_, ?_⟩ <;> intro hle <;> simpa using hle

/-- C2: every Prediction produced by `__map_predictions` has
`width = x2 - x1` and `height = y2 - y1` of its source box, and both
are non-negative for any valid detection (`x1 ≤ x2` and `y1 ≤ y2`). -/
theorem map_predictions_width_height (classes : List String)
    (inst : Instances) (ps : List Prediction)
    (h : map_predictions classes inst = some ps) :
    List.Forall₂ widthHeightSpec
      (inst.pred_boxes.zip (inst.scores.zip inst.pred_classes)) ps :=
  mapPredList_forall₂ classes _ ps h

/-- Witness for C2 on a concrete instance batch. -/
theorem map_predictions_width_height_witness :
    map_predictions ["text", "title"]
        { pred_boxes := [(1, 2, 4, 7)], scores := [(9 : ℚ)/10],
          pred_classes := [1] }
      = some [{ x := 1, y := 2, width := 3, height := 5,
                score := (9 : ℚ)/10, class_name := "title" }] ∧
    List.Forall₂ widthHeightSpec
      [((1, 2, 4, 7), (9 : ℚ)/10, 1)]
      [{ x := 1, y := 2, width := 3, height := 5,
         score := (9 : ℚ)/10, class_name := "title" }] := by
  constructor
  · norm_num [map_predictions, mapPredList, mapInstance, List.zip]
  · exact map_predictions_width_height ["text", "title"]
      { pred_boxes := [(1, 2, 4, 7)], scores := [(9 : ℚ)/10],
        pred_classes := [1] } _
      (by norm_num [map_predictions, mapPredList, mapInstance, List.zip])

lemma mapPredList_total_mem (classes : List String)
    (l : List ((ℚ × ℚ × ℚ × ℚ) × ℚ × ℕ))
    (hin : ∀ t ∈ l, t.2.2 < classes.length) :
    ∃ ps, mapPredList classes l = some ps ∧
      ∀ p ∈ ps, p.class_name ∈ classes := by
  induction l with
  | nil => exact ⟨[], rfl, by simp⟩
  | cons t rest ih =>
      obtain ⟨box, score, ci⟩ := t
      have hci : ci < classes.length := hin _ (List.mem_cons_self _ _)
      have hname : classes.get? ci = some (classes.get ⟨ci, hci⟩) :=
        List.get?_eq_get hci
      obtain ⟨ps, hps, hmem⟩ :=
        ih (fun t ht => hin t (List.mem_cons_of_mem _ ht))
      refine ⟨{ x := box.1, y := box.2.1,
                width := box.2.2.1 - box.1, height := box.2.2.2 - box.2.1,
                score := score, class_name := classes.get ⟨ci, hci⟩ } :: ps,
              ?_, ?_⟩
      · simp only [mapPredList, mapInstance, hname, hps]
      · intro p hp
        rcases List.mem_cons.mp hp with hp | hp
        · subst hp
          exact List.get_mem classes ci hci
        · exact hmem p hp

/-- C3: whenever every class index of the zipped detections is in range
(< length of `self.classes`), `__map_predictions` succeeds — the
indexing `self.classes[class_index]` never goes out of bounds — and the
`class_name` of every produced Prediction is an element of the
configured label map. -/
theorem map_predictions_class_in_map (classes : List String)
    (inst : Instances)
    (hin : ∀ t ∈ inst.pred_boxes.zip (inst.scores.zip inst.pred_classes),
      t.2.2 < classes.length) :
    ∃ ps, map_predictions classes inst = some ps ∧
      ∀ p ∈ ps, p.class_name ∈ classes :=
  mapPredList_total_mem classes _ hin

/-- Witness for C3 on a concrete instance batch. -/
theorem map_predictions_class_in_map_witness :
    (∀ t ∈ ([((0 : ℚ), (0 : ℚ), (2 : ℚ), (3 : ℚ))].zip
        ([(1 : ℚ)].zip [4])),
      t.2.2 < (["text", "title", "list", "table", "figure"] :
        List String).length) ∧
    ∃ ps, map_predictions ["text", "title", "list", "table", "figure"]
        { pred_boxes := [(0, 0, 2, 3)], scores := [1], pred_classes := [4] }
        = some ps ∧
      ∀ p ∈ ps, p.class_name ∈
        (["text", "title", "list", "table", "figure"] : List String) :=
  ⟨by decide,
   map_predictions_class_in_map _
     { pred_boxes := [(0, 0, 2, 3)], scores := [1], pred_classes := [4] }
     (by decide)⟩

/-! ## Images and `BatchPredictor.__collate` -/

/-- A CV2 image: rows × columns × channels of rational channel values
(`ndarray` of shape `(H, W, C)`). -/
abbrev Image := List (List (List ℚ))

/-- `image[:, :, ::-1]` (utils.py line 125): reverse the channel axis of
every pixel, flipping RGB to BGR and back. -/
def flipChannels (img : Image) : Image :=
  img.map (fun row => row.map List.reverse)

/-- Number of channels of a (rectangular) image, `image.shape[2]`. -/
def numChannels (img : Image) : ℕ :=
  ((img.headD []).headD []).length

/-- `image.transpose(2, 0, 1)` (utils.py line 129): reorder the axes of
the `(H, W, C)` array to `(C, H, W)`; entry `[c][h][w]` of the result is
entry `[h][w][c]` of the input. -/
def transposeHWC (img : Image) : List (List (List ℚ)) :=
  (List.range (numChannels img)).map
    (fun c => img.map (fun row => row.map (fun px => px.getD c 0)))

/-- One element of the list built by `__collate`
(utils.py line 131): the tensor together with the pre-resize height and
width recorded from `image.shape[:2]`. -/
structure CollateItem where
  image : List (List (List ℚ))
  height : ℕ
  width : ℕ
deriving Repr, DecidableEq

/-- The body of the `for image in batch` loop of
`BatchPredictor.__collate` (utils.py lines 121-131): flip the channel
order when `self.input_format == "RGB"`, record height and width, apply
the `ResizeShortestEdge` transform `aug`, and transpose to `(C, H, W)`.
-/
def collateImage (input_format : String) (aug : Image → Image)
    (img : Image) : CollateItem :=
  let img1 := if input_format = "RGB" then flipChannels img else img
  let h := img1.length
  let w := (img1.headD []).length
  let resized := aug img1
  { image := transposeHWC resized, height := h, width := w }

/-- `BatchPredictor.__collate` (utils.py lines 119-132). -/
def collate (input_format : String) (aug : Image → Image)
    (batch : List Image) : List CollateItem :=
  batch.map (collateImage input_format aug)

lemma flipChannels_shape (img : Image) :
    (flipChannels img).length = img.length ∧
      ((flipChannels img).headD []).length = (img.headD []).length := by
  constructor
  · simp [flipChannels]
  · cases img with
    | nil => rfl
    | cons row rest => simp [flipChannels]

lemma flipChannels_flipChannels (img : Image) :
    flipChannels (flipChannels img) = img := by
  unfold flipChannels
  rw [List.map_map]
  have : (fun row : List (List ℚ) => row.map List.reverse) ∘
      (fun row : List (List ℚ) => row.map List.reverse)
      = fun row : List (List ℚ) => row := by
    funext row
    simp [List.map_map, Function.comp]
  rw [this, List.map_id']

/-- C4: `__collate` reverses the channel order of each image exactly
when the configured input format is `"RGB"`: preprocessing an image with
format `"RGB"` is the same as preprocessing its channel-reversed image
with format `"BGR"`; with format `"BGR"` no flip is applied — the tensor
is the transpose of the resize of the untouched image; and the flip is a
genuine RGB↔BGR reversal (an involution). -/
theorem collate_flips_iff_rgb (aug : Image → Image) (img : Image) :
    collateImage "RGB" aug img = collateImage "BGR" aug (flipChannels img)
    ∧ (collateImage "BGR" aug img).image = transposeHWC (aug img)
    ∧ (collateImage "RGB" aug img).image = transposeHWC (aug (flipChannels img))
    ∧ flipChannels (flipChannels img) = img := by
  refine ⟨?_, ?_, ?_, flipChannels_flipChannels img⟩
  · simp [collateImage]
  · simp [collateImage]
  · simp [collateImage]

/-! ## The Detectron2 config node and `initializeModel` -/

/-- The `MODEL.ROI_HEADS` subtree of the config. -/
structure RoiHeadsCfg where
  SCORE_THRESH_TEST : ℚ
deriving Repr, DecidableEq, Inhabited

/-- The `MODEL` subtree of the config. -/
structure ModelCfg where
  WEIGHTS : String
  DEVICE : String
  ROI_HEADS : RoiHeadsCfg
deriving Repr, DecidableEq, Inhabited

/-- The `INPUT` subtree of the config. -/
structure InputCfg where
  FORMAT : String
  MIN_SIZE_TEST : ℕ
  MAX_SIZE_TEST : ℕ
deriving Repr, DecidableEq, Inhabited

/-- The Detectron2 `CfgNode`, restricted to the fields this repository
reads or writes. -/
structure CfgNode where
  MODEL : ModelCfg
  INPUT : InputCfg
deriving Repr, DecidableEq, Inhabited

/-- `initializeModel` (utils.py lines 11-54) as a transformation of the
config: starting from the config loaded from `config_path` (`base`), it
merges `["MODEL.WEIGHTS", weights_path]`, sets `cfg.MODEL.DEVICE` to
`"cuda"` when `cuda.is_available()` and `"cpu"` otherwise, and sets
`cfg.MODEL.ROI_HEADS.SCORE_THRESH_TEST` to `threshold`. -/
def initializeModel (base : CfgNode) (cudaAvailable : Bool)
    (weights_path : String) (threshold : ℚ) : CfgNode :=
  let cfg := { base with MODEL := { base.MODEL with WEIGHTS := weights_path } }
  let device := if cudaAvailable then "cuda" else "cpu"
  let cfg := { cfg with MODEL := { cfg.MODEL with DEVICE := device } }
  { cfg with MODEL := { cfg.MODEL with
      ROI_HEADS := { cfg.MODEL.ROI_HEADS with SCORE_THRESH_TEST := threshold } } }

/-- C8: for every base config, weights path and threshold,
`initializeModel` sets the device to `"cuda"` exactly when CUDA is
available and to `"cpu"` otherwise, and sets
`MODEL.ROI_HEADS.SCORE_THRESH_TEST` to the given threshold. -/
theorem initializeModel_device_threshold (base : CfgNode)
    (cudaAvailable : Bool) (weights_path : String) (threshold : ℚ) :
    ((initializeModel base cudaAvailable weights_path threshold).MODEL.DEVICE
        = "cuda" ↔ cudaAvailable = true)
    ∧ ((initializeModel base cudaAvailable weights_path threshold).MODEL.DEVICE
        = "cpu" ↔ cudaAvailable = false)
    ∧ (initializeModel base cudaAvailable weights_path
        threshold).MODEL.ROI_HEADS.SCORE_THRESH_TEST = threshold := by
  cases cudaAvailable <;> simp [initializeModel]

/-! ## `BatchPredictor.__init__` and `__call__` -/

/-- The attributes set by `BatchPredictor.__init__`
(utils.py lines 100-117) that later methods read. -/
structure BatchPredictorState where
  cfg : CfgNode
  classes : List String
  batch_size : ℕ
  workers : ℕ
  aug_min_size : ℕ
  aug_max_size : ℕ
  input_format : String
deriving Repr, DecidableEq

/-- `BatchPredictor.__init__` (utils.py lines 100-117): store the
constructor arguments, configure `ResizeShortestEdge` with
`cfg.INPUT.MIN_SIZE_TEST` / `cfg.INPUT.MAX_SIZE_TEST`, read
`cfg.INPUT.FORMAT`, and run
`assert self.input_format in ["RGB", "BGR"], self.input_format`;
a failing assertion raises `AssertionError` carrying the format. -/
def batchPredictorInit (cfg : CfgNode) (classes : List String)
    (batch_size workers : ℕ) : Except String BatchPredictorState :=
  let st : BatchPredictorState :=
    { cfg := cfg, classes := classes, batch_size := batch_size,
      workers := workers,
      aug_min_size := cfg.INPUT.MIN_SIZE_TEST,
      aug_max_size := cfg.INPUT.MAX_SIZE_TEST,
      input_format := cfg.INPUT.FORMAT }
  if st.input_format = "RGB" ∨ st.input_format = "BGR" then .ok st
  else .error st.input_format

/-- C10: `BatchPredictor.__init__` fails with an assertion error
whenever `cfg.INPUT.FORMAT` is neither `"RGB"` nor `"BGR"`, and on any
successfully constructed predictor (the one `__collate` reads
`self.input_format` from) the stored input format is `"RGB"` or
`"BGR"`. -/
theorem batchPredictorInit_format (cfg : CfgNode) (classes : List String)
    (batch_size workers : ℕ) :
    (cfg.INPUT.FORMAT ≠ "RGB" → cfg.INPUT.FORMAT ≠ "BGR" →
      batchPredictorInit cfg classes batch_size workers
        = .error cfg.INPUT.FORMAT)
    ∧ (∀ st, batchPredictorInit cfg classes batch_size workers = .ok st →
        st.input_format = "RGB" ∨ st.input_format = "BGR") := by
  constructor
  · intro h1 h2
    simp [batchPredictorInit, h1, h2]
  · intro st hst
    by_cases h : cfg.INPUT.FORMAT = "RGB" ∨ cfg.INPUT.FORMAT = "BGR"
    · simp only [batchPredictorInit, if_pos h, Except.ok.injEq] at hst
      subst hst
      exact h
    · simp [batchPredictorInit, if_neg h] at hst

/-- A config whose input format is the invalid `"XYZ"`. -/
def cfgXYZ : CfgNode :=
  { MODEL := { WEIGHTS := "w", DEVICE := "cpu",
               ROI_HEADS := { SCORE_THRESH_TEST := 0 } },
    INPUT := { FORMAT := "XYZ", MIN_SIZE_TEST := 800,
               MAX_SIZE_TEST := 1333 } }

/-- A config whose input format is `"BGR"`. -/
def cfgBGR : CfgNode :=
  { MODEL := { WEIGHTS := "w", DEVICE := "cpu",
               ROI_HEADS := { SCORE_THRESH_TEST := 0 } },
    INPUT := { FORMAT := "BGR", MIN_SIZE_TEST := 800,
               MAX_SIZE_TEST := 1333 } }

/-- The predictor state built from `cfgBGR`. -/
def stBGR : BatchPredictorState :=
  { cfg := cfgBGR, classes := [], batch_size := 1, workers := 2,
    aug_min_size := 800, aug_max_size := 1333, input_format := "BGR" }

/-- Witness for C10: a config with format `"XYZ"` is rejected, and a
predictor constructed with format `"BGR"` stores `"RGB"` or `"BGR"`. -/
theorem batchPredictorInit_format_witness :
    batchPredictorInit cfgXYZ [] 1 2 = .error "XYZ"
    ∧ (stBGR.input_format = "RGB" ∨ stBGR.input_format = "BGR") := by
  constructor
  · exact (batchPredictorInit_format cfgXYZ [] 1 2).1 (by decide) (by decide)
  · exact (batchPredictorInit_format cfgBGR [] 1 2).2 stBGR
      (by simp [batchPredictorInit, cfgBGR, stBGR])

/-- What one element yielded by `BatchPredictor.__call__` is: the code
yields the raw `result['instances']` objects
(utils.py line 155), while the declared return type
`Iterable[List[Prediction]]` and the docstring promise lists of mapped
`Prediction` tuples. -/
inductive CallOutput
  | rawInstances (inst : Instances)
  | mapped (preds : List Prediction)
deriving Repr, DecidableEq

/-- `BatchPredictor.__call__` (utils.py lines 134-155): the `DataLoader`
cuts `imagery` into consecutive batches of `self.batch_size`
(`shuffle=False`) and collates each with `__collate`; for each batch the
model returns one result per input, and the loop yields
`result['instances']` for each result — `__map_predictions` is never
invoked. `model` maps a collated batch to the `'instances'` entry of
each result. -/
def batchPredictorCall (st : BatchPredictorState) (aug : Image → Image)
    (model : List CollateItem → List Instances)
    (imagery : List Image) : List CallOutput :=
  let loader := (List.toChunks st.batch_size imagery).map
    (collate st.input_format aug)
  (loader.map (fun batch => (model batch).map CallOutput.rawInstances)).flatten

/-- A one-pixel, one-channel test image. -/
def imgC1 : Image := [[[0]]]

/-- The instances the model reports for the test image. -/
def instC1 : Instances :=
  { pred_boxes := [(0, 0, 2, 3)], scores := [1], pred_classes := [0] }

/-- A model that reports `instC1` for every image of the batch. -/
def modelC1 (batch : List CollateItem) : List Instances :=
  batch.map (fun _ => instC1)

/-- The list `__map_predictions` would produce from `instC1` with the
default label map. -/
def predsC1 : List Prediction :=
  [{ x := 0, y := 0, width := 2, height := 3, score := 1,
     class_name := "text" }]

/-- C1 (failing-input evaluation): on a one-image input, `__call__`
yields exactly one element, but that element is the raw
`result['instances']` object, not the list of
`(x, y, width, height, score, class_name)` tuples `__map_predictions`
maps it to — `__map_predictions` is never called by `__call__`, although
the declared return type `Iterable[List[Prediction]]` and the docstring
promise mapped predictions. -/
theorem call_yields_raw_instances_not_mapped :
    batchPredictorCall stBGR id modelC1 [imgC1]
      = [CallOutput.rawInstances instC1]
    ∧ map_predictions ["text", "title", "list", "table", "figure"] instC1
      = some predsC1
    ∧ CallOutput.rawInstances instC1 ≠ CallOutput.mapped predsC1 := by
  refine ⟨?_, ?_, ?_⟩
  · simp [batchPredictorCall, stBGR, modelC1, collate, List.toChunks,
      List.toChunks.go]
  · norm_num [map_predictions, instC1, predsC1, mapPredList, mapInstance,
      List.zip]
  · intro h
    exact absurd h (by simp)

/-! ## The main loop (src/main.py lines 33-44) -/

/-- The five layout stages `main` applies to each document
(main.py lines 40-44). -/
inductive Stage
  | docToImages
  | extractLayouts
  | orderLayouts
  | saveLayoutsAsJson
  | saveLayoutsAsHtml
deriving Repr, DecidableEq

/-- An event of `main`'s execution trace: a stage applied to a
document. -/
abbrev Event := String × Stage

/-- The stage order fixed by the body of `main`'s loop. -/
def stageSequence : List Stage :=
  [.docToImages, .extractLayouts, .orderLayouts,
   .saveLayoutsAsJson, .saveLayoutsAsHtml]

/-- The loop body of `main` for one filename (main.py lines 33-44): the
five `Document` method calls, in program order. -/
def processDoc (filename : String) : List Event :=
  [(filename, .docToImages), (filename, .extractLayouts),
   (filename, .orderLayouts), (filename, .saveLayoutsAsJson),
   (filename, .saveLayoutsAsHtml)]

/-- The `for filename in filenames` loop of `main`: each document's
body runs to completion before the next iteration starts. -/
def mainRun : List String → List Event
  | [] => []
  | f :: rest => processDoc f ++ mainRun rest

/-- C7: `main` processes documents strictly sequentially in listing
order — the execution trace is exactly the concatenation, over the
filenames in order, of the fixed linear stage sequence `docToImages`,
`extractLayouts`, `orderLayouts`, `saveLayoutsAsJson`,
`saveLayoutsAsHtml` applied to that document, so no later document's
stage appears before all stages of an earlier document. -/
theorem mainRun_sequential (filenames : List String) :
    mainRun filenames
      = filenames.flatMap (fun f => stageSequence.map (fun s => (f, s))) := by
  induction filenames with
  | nil => rfl
  | cons f rest ih => simp [mainRun, ih, processDoc, stageSequence]

/-- The loop of `main` when a document's processing may raise: `process`
is the body (Document construction and the five stages) returning
`.ok ()` or an exception. The result is the list of documents whose
processing was started, paired with the uncaught exception if one was
raised — `main` has no `try`/`except`, so the first exception ends the
loop. -/
def mainLoop {E : Type} (process : String → Except E Unit) :
    List String → List String × Option E
  | [] => ([], none)
  | f :: rest =>
      match process f with
      | .error e => ([f], some e)
      | .ok _ =>
          ((mainLoop process rest).1.cons f, (mainLoop process rest).2)

/-- C6: if every document before `bad` processes cleanly and processing
`bad` raises `e`, then the loop attempts exactly the documents up to and
including `bad` (each once — no retry), no document after `bad` is
processed, and `e` propagates out of `main` uncaught. -/
theorem mainLoop_aborts_on_error {E : Type}
    (process : String → Except E Unit) (pre : List String) (bad : String)
    (post : List String) (e : E)
    (hpre : ∀ f ∈ pre, process f = .ok ())
    (hbad : process bad = .error e) :
    mainLoop process (pre ++ bad :: post) = (pre ++ [bad], some e) := by
  induction pre with
  | nil => simp [mainLoop, hbad]
  | cons f rest ih =>
      have hf : process f = .ok () := hpre f (List.mem_cons_self _ _)
      have ih' := ih (fun g hg => hpre g (List.mem_cons_of_mem _ hg))
      simp [mainLoop, hf, ih']

/-- Witness for C6: with a processing function that raises only on
`"b.pdf"`, the listing `["a.pdf", "b.pdf", "c.pdf"]` stops after
`"b.pdf"`; `"c.pdf"` is never processed and the error escapes. -/
theorem mainLoop_aborts_on_error_witness :
    mainLoop
        (fun f => if f = "b.pdf" then .error "corrupt PDF" else .ok ())
        (["a.pdf"] ++ "b.pdf" :: ["c.pdf"])
      = (["a.pdf"] ++ ["b.pdf"], some "corrupt PDF") :=
  mainLoop_aborts_on_error
    (fun f => if f = "b.pdf" then .error "corrupt PDF" else .ok ())
    ["a.pdf"] "b.pdf" ["c.pdf"] "corrupt PDF"
    (by intro f hf; simp only [List.mem_singleton] at hf; subst hf; rfl)
    (by rfl)

/-! ## `cfg.clone()` and the frame effect of `BatchPredictor.__init__` -/

/-- A heap of config objects: Python variables hold references
(indices) into it. -/
abbrev CfgHeap := List CfgNode

/-- `BatchPredictor.__init__` acting on the config heap
(utils.py lines 100-109): `self.cfg = cfg.clone()` allocates a fresh
copy of the caller's config, and `build_model(self.cfg)` may mutate the
model's config in place (the source comments `# cfg can be modified by
model`), modelled by an arbitrary in-place update `buildMutate` applied
to the clone's cell.  All other uses of the caller's `cfg` are reads. -/
def initHeap (heap : CfgHeap) (callerRef : ℕ)
    (buildMutate : CfgNode → CfgNode) : CfgHeap × ℕ :=
  let c := heap.getD callerRef default
  let selfRef := heap.length
  let heap1 := heap ++ [c]
  let heap2 := heap1.set selfRef (buildMutate c)
  (heap2, selfRef)

/-- C9: `BatchPredictor.__init__` never mutates the caller's config:
whatever in-place mutation model building performs, every config cell
that existed before the constructor ran — in particular the caller's —
holds the same value afterwards. -/
theorem initHeap_frame (heap : CfgHeap) (callerRef : ℕ)
    (buildMutate : CfgNode → CfgNode) (i : ℕ) (hi : i < heap.length) :
    ((initHeap heap callerRef buildMutate).1).get? i = heap.get? i := by
  unfold initHeap
  simp only
  rw [List.get?_set_ne _ _ (by omega)]
  exact List.get?_append hi

/-- Witness for C9: a two-cell heap where the model mutates its clone's
device field; the caller's cell is unchanged. -/
theorem initHeap_frame_witness :
    (0 : ℕ) < ([cfgBGR, cfgXYZ] : CfgHeap).length ∧
    ((initHeap [cfgBGR, cfgXYZ] 0
        (fun c => { c with MODEL := { c.MODEL with DEVICE := "cuda" } })).1).get? 0
      = ([cfgBGR, cfgXYZ] : CfgHeap).get? 0 :=
  ⟨by decide,
   initHeap_frame [cfgBGR, cfgXYZ] 0
     (fun c => { c with MODEL := { c.MODEL with DEVICE := "cuda" } }) 0
     (by decide)⟩

/-! ## `ResizeShortestEdge` output bounds -/

/-- The rounding `int(x + 0.5)` used when computing the resized shape. -/
def roundHalf (x : ℚ) : ℤ := ⌊x + 1 / 2⌋

/-- The scale factor `size * 1.0 / min(h, w)` bringing the shorter edge
to `size`. -/
def resizeScale (h w size : ℕ) : ℚ := (size : ℚ) / ((min h w : ℕ) : ℚ)

/-- The pre-cap height: `size` when `h < w`, else `scale * h`. -/
def preNewH (h w size : ℕ) : ℚ :=
  if h < w then (size : ℚ) else resizeScale h w size * h

/-- The pre-cap width: `scale * w` when `h < w`, else `size`. -/
def preNewW (h w size : ℕ) : ℚ :=
  if h < w then resizeScale h w size * w else (size : ℚ)

/-- Modelled from the spec: `T.ResizeShortestEdge` is external
detectron2 code; `BatchPredictor.__init__` (utils.py lines 111-114)
instantiates it with short-edge range
`[cfg.INPUT.MIN_SIZE_TEST, cfg.INPUT.MIN_SIZE_TEST]` and maximum size
`cfg.INPUT.MAX_SIZE_TEST`, so the sampled target short edge is always
`MIN_SIZE_TEST`.  The transform's output shape: scale the shorter edge
of the `(h, w)` image to `size`; if the longer edge then exceeds
`maxSize`, rescale so the longer edge equals `maxSize`; round both to
the nearest integer ("edge-aware resize to the model's expected input
bounds"). -/
def getOutputShape (h w size maxSize : ℕ) : ℤ × ℤ :=
  if max (preNewH h w size) (preNewW h w size) > (maxSize : ℚ) then
    (roundHalf (preNewH h w size *
        ((maxSize : ℚ) / max (preNewH h w size) (preNewW h w size))),
     roundHalf (preNewW h w size *
        ((maxSize : ℚ) / max (preNewH h w size) (preNewW h w size))))
  else
    (roundHalf (preNewH h w size), roundHalf (preNewW h w size))

lemma roundHalf_le (x : ℚ) (n : ℕ) (hx : x ≤ (n : ℚ)) :
    roundHalf x ≤ (n : ℤ) := by
  unfold roundHalf
  have h1 : x + 1 / 2 < (((n : ℤ) + 1 : ℤ) : ℚ) := by push_cast; linarith
  have h2 : ⌊x + 1 / 2⌋ < (n : ℤ) + 1 := Int.floor_lt.mpr h1
  omega

lemma size_le_preNew (h w size : ℕ) (hh : 0 < h) (hw : 0 < w) :
    (size : ℚ) ≤ preNewH h w size ∧ (size : ℚ) ≤ preNewW h w size ∧
      (preNewH h w size = (size : ℚ) ∨ preNewW h w size = (size : ℚ)) := by
  by_cases hlt : h < w
  · have hq : (0 : ℚ) < (h : ℚ) := by exact_mod_cast hh
    have hscale : resizeScale h w size = (size : ℚ) / (h : ℚ) := by
      rw [resizeScale, min_eq_left (le_of_lt hlt)]
    have hH : preNewH h w size = (size : ℚ) := by
      rw [preNewH, if_pos hlt]
    have hW : preNewW h w size = (size : ℚ) / (h : ℚ) * (w : ℚ) := by
      rw [preNewW, if_pos hlt, hscale]
    have hbase : (size : ℚ) / (h : ℚ) * (h : ℚ) = (size : ℚ) :=
      div_mul_cancel₀ _ (ne_of_gt hq)
    have hle : (size : ℚ) / (h : ℚ) * (h : ℚ)
        ≤ (size : ℚ) / (h : ℚ) * (w : ℚ) := by
      apply mul_le_mul_of_nonneg_left
      · exact_mod_cast le_of_lt hlt
      · positivity
    exact ⟨le_of_eq hH.symm, by rw [hW]; linarith [hbase ▸ hle],
      Or.inl hH⟩
  · have hwh : w ≤ h := le_of_not_lt hlt
    have hq : (0 : ℚ) < (w : ℚ) := by exact_mod_cast hw
    have hscale : resizeScale h w size = (size : ℚ) / (w : ℚ) := by
      rw [resizeScale, min_eq_right hwh]
    have hW : preNewW h w size = (size : ℚ) := by
      rw [preNewW, if_neg hlt]
    have hH : preNewH h w size = (size : ℚ) / (w : ℚ) * (h : ℚ) := by
      rw [preNewH, if_neg hlt, hscale]
    have hbase : (size : ℚ) / (w : ℚ) * (w : ℚ) = (size : ℚ) :=
      div_mul_cancel₀ _ (ne_of_gt hq)
    have hle : (size : ℚ) / (w : ℚ) * (w : ℚ)
        ≤ (size : ℚ) / (w : ℚ) * (h : ℚ) := by
      apply mul_le_mul_of_nonneg_left
      · exact_mod_cast hwh
      · positivity
    exact ⟨by rw [hH]; linarith [hbase ▸ hle], le_of_eq hW.symm,
      Or.inr hW⟩

lemma getOutputShape_bounded (h w size maxSize : ℕ)
    (hh : 0 < h) (hw : 0 < w) (hs : 0 < size) :
    (getOutputShape h w size maxSize).1 ≤ (maxSize : ℤ)
    ∧ (getOutputShape h w size maxSize).2 ≤ (maxSize : ℤ)
    ∧ min (getOutputShape h w size maxSize).1
        (getOutputShape h w size maxSize).2 ≤ (size : ℤ) := by
  obtain ⟨ha, hb, hor⟩ := size_le_preNew h w size hh hw
  have hs' : (0 : ℚ) < (size : ℚ) := by exact_mod_cast hs
  have hapos : (0 : ℚ) < preNewH h w size := lt_of_lt_of_le hs' ha
  have hbpos : (0 : ℚ) < preNewW h w size := lt_of_lt_of_le hs' hb
  have hM : (0 : ℚ) < max (preNewH h w size) (preNewW h w size) :=
    lt_max_of_lt_left hapos
  by_cases hcap :
      max (preNewH h w size) (preNewW h w size) > (maxSize : ℚ)
  · rw [getOutputShape, if_pos hcap]
    have hf0 : (0 : ℚ) ≤ (maxSize : ℚ) / max (preNewH h w size)
        (preNewW h w size) := by positivity
    have hf1 : (maxSize : ℚ) / max (preNewH h w size) (preNewW h w size)
        ≤ 1 := (div_le_one hM).mpr (le_of_lt hcap)
    have hMmul : max (preNewH h w size) (preNewW h w size) *
        ((maxSize : ℚ) / max (preNewH h w size) (preNewW h w size))
        = (maxSize : ℚ) := by
      rw [mul_comm, div_mul_cancel₀ _ (ne_of_gt hM)]
    have hA : preNewH h w size *
        ((maxSize : ℚ) / max (preNewH h w size) (preNewW h w size))
        ≤ (maxSize : ℚ) := by
      calc preNewH h w size * _
          ≤ max (preNewH h w size) (preNewW h w size) *
            ((maxSize : ℚ) / max (preNewH h w size) (preNewW h w size)) :=
            mul_le_mul_of_nonneg_right (le_max_left _ _) hf0
        _ = (maxSize : ℚ) := hMmul
    have hB : preNewW h w size *
        ((maxSize : ℚ) / max (preNewH h w size) (preNewW h w size))
        ≤ (maxSize : ℚ) := by
      calc preNewW h w size * _
          ≤ max (preNewH h w size) (preNewW h w size) *
            ((maxSize : ℚ) / max (preNewH h w size) (preNewW h w size)) :=
            mul_le_mul_of_nonneg_right (le_max_right _ _) hf0
        _ = (maxSize : ℚ) := hMmul
    refine ⟨roundHalf_le _ _ hA, roundHalf_le _ _ hB, ?_⟩
    rcases hor with hEq | hEq
    · refine le_trans (min_le_left _ _) (roundHalf_le _ _ ?_)
      nth_rewrite 1 [hEq]
      calc (size : ℚ) * ((maxSize : ℚ) / max (preNewH h w size)
            (preNewW h w size))
          ≤ (size : ℚ) * 1 :=
            mul_le_mul_of_nonneg_left hf1 (le_of_lt hs')
        _ = (size : ℚ) := mul_one _
    · refine le_trans (min_le_right _ _) (roundHalf_le _ _ ?_)
      nth_rewrite 1 [hEq]
      calc (size : ℚ) * ((maxSize : ℚ) / max (preNewH h w size)
            (preNewW h w size))
          ≤ (size : ℚ) * 1 :=
            mul_le_mul_of_nonneg_left hf1 (le_of_lt hs')
        _ = (size : ℚ) := mul_one _
  · rw [getOutputShape, if_neg hcap]
    push_neg at hcap
    have hA : preNewH h w size ≤ (maxSize : ℚ) :=
      le_trans (le_max_left _ _) hcap
    have hB : preNewW h w size ≤ (maxSize : ℚ) :=
      le_trans (le_max_right _ _) hcap
    refine ⟨roundHalf_le _ _ hA, roundHalf_le _ _ hB, ?_⟩
    rcases hor with hEq | hEq
    · exact le_trans (min_le_left _ _) (roundHalf_le _ _ (le_of_eq hEq))
    · exact le_trans (min_le_right _ _) (roundHalf_le _ _ (le_of_eq hEq))

/-- C5: for every image shape with positive height and width, the
spatial dimensions produced by the `ResizeShortestEdge` transform that
`__collate` applies — configured with `cfg.INPUT.MIN_SIZE_TEST` and
`cfg.INPUT.MAX_SIZE_TEST` — are bounded by the configured parameters:
both output dimensions are at most `MAX_SIZE_TEST` and the shorter
output dimension is at most `MIN_SIZE_TEST`. -/
theorem resize_output_bounded (cfg : CfgNode) (h w : ℕ)
    (hh : 0 < h) (hw : 0 < w) (hs : 0 < cfg.INPUT.MIN_SIZE_TEST) :
    (getOutputShape h w cfg.INPUT.MIN_SIZE_TEST
        cfg.INPUT.MAX_SIZE_TEST).1 ≤ (cfg.INPUT.MAX_SIZE_TEST : ℤ)
    ∧ (getOutputShape h w cfg.INPUT.MIN_SIZE_TEST
        cfg.INPUT.MAX_SIZE_TEST).2 ≤ (cfg.INPUT.MAX_SIZE_TEST : ℤ)
    ∧ min (getOutputShape h w cfg.INPUT.MIN_SIZE_TEST
          cfg.INPUT.MAX_SIZE_TEST).1
        (getOutputShape h w cfg.INPUT.MIN_SIZE_TEST
          cfg.INPUT.MAX_SIZE_TEST).2 ≤ (cfg.INPUT.MIN_SIZE_TEST : ℤ) :=
  getOutputShape_bounded h w _ _ hh hw hs

/-- A config with resize bounds 10 / 15, used to witness C5. -/
def cfgResize : CfgNode :=
  { MODEL := { WEIGHTS := "w", DEVICE := "cpu",
               ROI_HEADS := { SCORE_THRESH_TEST := 0 } },
    INPUT := { FORMAT := "BGR", MIN_SIZE_TEST := 10,
               MAX_SIZE_TEST := 15 } }

/-- Witness for C5 at a concrete 2×4 image shape. -/
theorem resize_output_bounded_witness :
    (0 < 2 ∧ 0 < 4 ∧ 0 < cfgResize.INPUT.MIN_SIZE_TEST)
    ∧ ((getOutputShape 2 4 cfgResize.INPUT.MIN_SIZE_TEST
          cfgResize.INPUT.MAX_SIZE_TEST).1
        ≤ (cfgResize.INPUT.MAX_SIZE_TEST : ℤ)
      ∧ (getOutputShape 2 4 cfgResize.INPUT.MIN_SIZE_TEST
          cfgResize.INPUT.MAX_SIZE_TEST).2
        ≤ (cfgResize.INPUT.MAX_SIZE_TEST : ℤ)
      ∧ min (getOutputShape 2 4 cfgResize.INPUT.MIN_SIZE_TEST
            cfgResize.INPUT.MAX_SIZE_TEST).1
          (getOutputShape 2 4 cfgResize.INPUT.MIN_SIZE_TEST
            cfgResize.INPUT.MAX_SIZE_TEST).2
        ≤ (cfgResize.INPUT.MIN_SIZE_TEST : ℤ)) :=
  ⟨⟨by decide, by decide, by decide⟩,
   resize_output_bounded cfgResize 2 4 (by decide) (by decide) (by decide)⟩

end Diard
